import Mathlib

/-!
Shallow embedding of the FastAPI tutorial service (`app/main.py`, `app/models.py`):
a CRUD API over `Customer` records, echo endpoints for `Transaction` and
`Invoice`, and a country-code → timezone lookup endpoint.

Machine integers are modelled as `Int` (Python integers are unbounded).
HTTP request bodies that undergo pydantic validation are modelled either as
already-validated structures, or — where field names matter — as association
lists of JSON-like values fed to an explicit validation function.
-/

namespace App

/-- JSON-like field values, for modelling pydantic body validation where the
field names of the wire payload matter. -/
inductive JValue where
  | int (n : Int)
  | str (s : String)
  | null
deriving DecidableEq, Repr

/-- `models.py` `Customer(CustomerBase, table=True)`: the four `CustomerBase`
columns (`name`, `description`, `email`, `age`, all nullable since every field
has `default=None`) plus the optional primary key `id : int | None`
(`None` until storage assigns it). -/
structure Customer where
  name : Option String
  description : Option String
  email : Option String
  age : Option Int
  id : Option Int
deriving DecidableEq, Repr

/-- `models.py` `CustomerCreate(CustomerBase)`: a validated creation payload.
`none` in a field means the caller omitted it (pydantic then supplies the
declared `default=None`); explicit `null` is rejected by validation for the
`str` / `int` typed fields `name`, `email`, `age`, and for `description`
(typed `str | None`) an explicit `null` and an omission both yield `None`. -/
structure CustomerCreate where
  name : Option String
  description : Option String
  email : Option String
  age : Option Int
deriving DecidableEq, Repr

/-- `models.py` `CustomerUpdate(CustomerBase)`: a validated partial-update
payload.  `main.py` dumps it with `exclude_unset=True`, so the embedding must
distinguish *omitted* fields from fields *explicitly set*:
`none` = the caller omitted the field; `some v` = the caller explicitly set it.
For `description` (typed `str | None`) the set value is itself optional, since
an explicit JSON `null` validates and is kept by `exclude_unset=True`; for the
`str` / `int` typed fields an explicit `null` fails validation, so a set value
is always a proper value. -/
structure CustomerUpdate where
  name : Option String
  description : Option (Option String)
  email : Option String
  age : Option Int
deriving DecidableEq, Repr

/-- The fully-omitted update payload (`{}`), base for building patches. -/
def emptyUpdate : CustomerUpdate :=
  { name := none, description := none, email := none, age := none }

/-- Modelled from the spec: the storage session provider (`app/db.py` is not
under `src/`; spec §4.2).  The relational store behind the session is a table
of `Customer` rows plus the autoincrement counter that assigns primary keys on
creation ("`id` (integer, primary key, assigned by storage on creation)"). -/
structure DB where
  rows : List Customer
  nextId : Int
deriving DecidableEq, Repr

/-- Modelled from the spec: the store after one-time schema initialization,
before any request — no rows; SQL autoincrement starts at 1. -/
def initialDB : DB := { rows := [], nextId := 1 }

/-- Modelled from the spec: `session.get(Customer, customer_id)` — "point
lookup, returns absent if not found" (spec §4.2), keyed on the primary key. -/
def DB.get (db : DB) (customer_id : Int) : Option Customer :=
  db.rows.find? (fun r => r.id == some customer_id)

/-- `fastapi.HTTPException` as raised by the customer routes. -/
structure HTTPError where
  status_code : Int
  detail : String
deriving DecidableEq, Repr

/-- `HTTPException(status_code=status.HTTP_404_NOT_FOUND, detail="Customer doesn't exist")`,
raised identically in `read_customer`, `update_customer`, `delete_customer`. -/
def customerNotFound : HTTPError :=
  { status_code := 404, detail := "Customer doesn't exist" }

/-- The `{"detail": "ok"}` confirmation payload of `delete_customer`. -/
structure Detail where
  detail : String
deriving DecidableEq, Repr

/-- `POST /customers` (`main.py` `create_customer`):
`Customer.model_validate(customer_data.model_dump())` builds a row with
`id=None`; `session.add` + `session.commit` persist it, storage assigns the
next autoincrement id, and `session.refresh` re-reads it (spec §4.2), so the
returned record carries the assigned id.  Returns the response and the
post-request store. -/
def create_customer (customer_data : CustomerCreate) (db : DB) : Customer × DB :=
  let customer : Customer :=
    { name := customer_data.name
      description := customer_data.description
      email := customer_data.email
      age := customer_data.age
      id := some db.nextId }
  (customer, { rows := db.rows ++ [customer], nextId := db.nextId + 1 })

/-- `GET /customer/{customer_id}` (`main.py` `read_customer`): point lookup;
404 "Customer doesn't exist" if absent.  Returns the response and the
post-request store. -/
def read_customer (customer_id : Int) (db : DB) :
    Except HTTPError Customer × DB :=
  match db.get customer_id with
  | none => (.error customerNotFound, db)
  | some customer_db => (.ok customer_db, db)

/-- `customer_db.sqlmodel_update(customer_data.model_dump(exclude_unset=True))`
in `update_customer`: every field present in the dump (i.e. explicitly set by
the caller, `null` included where it validates) overwrites the stored
attribute; omitted fields are untouched.  `CustomerUpdate` has no `id` field,
so `id` is never part of the dump. -/
def Customer.sqlmodel_update (customer_db : Customer) (customer_data : CustomerUpdate) :
    Customer :=
  { customer_db with
    name := match customer_data.name with
      | some v => some v
      | none => customer_db.name
    description := match customer_data.description with
      | some v => v
      | none => customer_db.description
    email := match customer_data.email with
      | some v => some v
      | none => customer_db.email
    age := match customer_data.age with
      | some v => some v
      | none => customer_db.age }

/-- `PATCH /customer/{customer_id}` (`main.py` `update_customer`): look up by
id (404 "Customer doesn't exist" if absent); apply the exclude-unset dump onto
the stored record; `add`/`commit` persist the mutated row in place (same
primary key); `refresh` re-reads it; return it.  Returns the response and the
post-request store. -/
def update_customer (customer_id : Int) (customer_data : CustomerUpdate) (db : DB) :
    Except HTTPError Customer × DB :=
  match db.get customer_id with
  | none => (.error customerNotFound, db)
  | some customer_db =>
    let updated := customer_db.sqlmodel_update customer_data
    (.ok updated,
      { db with
        rows := db.rows.map (fun r => if r.id == some customer_id then updated else r) })

/-- `DELETE /customer/{customer_id}` (`main.py` `delete_customer`): look up by
id (404 "Customer doesn't exist" if absent); `session.delete` the row;
`commit`; return `{"detail": "ok"}`.  Returns the response and the
post-request store. -/
def delete_customer (customer_id : Int) (db : DB) :
    Except HTTPError Detail × DB :=
  match db.get customer_id with
  | none => (.error customerNotFound, db)
  | some _ =>
    (.ok { detail := "ok" },
      { db with rows := db.rows.filter (fun r => !(r.id == some customer_id)) })

/-- `GET /customers` (`main.py` `list_customer`): `session.exec(select(Customer)).all()`,
every stored row. -/
def list_customer (db : DB) : List Customer × DB :=
  (db.rows, db)

/-- One inbound request against the customer CRUD surface, for reasoning about
request histories. -/
inductive Op where
  | create (customer_data : CustomerCreate)
  | read (customer_id : Int)
  | update (customer_id : Int) (customer_data : CustomerUpdate)
  | delete (customer_id : Int)
  | list
deriving DecidableEq, Repr

/-- The store after handling one request (each handler's post-request store). -/
def execState (op : Op) (db : DB) : DB :=
  match op with
  | .create customer_data => (create_customer customer_data db).2
  | .read customer_id => (read_customer customer_id db).2
  | .update customer_id customer_data => (update_customer customer_id customer_data db).2
  | .delete customer_id => (delete_customer customer_id db).2
  | .list => (list_customer db).2

/-- The store after handling a sequence of requests. -/
def run (ops : List Op) (db : DB) : DB :=
  match ops with
  | [] => db
  | op :: rest => run rest (execState op db)

/-- The ids returned by the `POST /customers` responses along a request
sequence, in order. -/
def createdIds (ops : List Op) (db : DB) : List Int :=
  match ops with
  | [] => []
  | op :: rest =>
    (match op with
     | .create customer_data => ((create_customer customer_data db).1.id).toList
     | _ => []) ++ createdIds rest (execState op db)

/-- `models.py` `Transaction(BaseModel)`.  Note the source spells the amount
field `ammount`. -/
structure Transaction where
  id : Int
  ammount : Int
  description : String
deriving DecidableEq, Repr

/-- Pydantic body validation for `Transaction` (default config: the declared
fields `id : int`, `ammount : int`, `description : str` are required, unknown
fields in the payload are ignored). -/
def Transaction.model_validate (payload : List (String × JValue)) : Option Transaction :=
  let field : String → Option JValue :=
    fun k => (payload.find? (fun p => p.1 == k)).map (fun p => p.2)
  match field "id", field "ammount", field "description" with
  | some (.int i), some (.int a), some (.str d) => some { id := i, ammount := a, description := d }
  | _, _, _ => none

/-- `models.py` `Invoice(BaseModel)`: caller-supplied `id` and `total`, an
embedded `Customer` value and a list of `Transaction`s.  No validator relates
`total` to the transactions. -/
structure Invoice where
  id : Int
  customer : Customer
  transactions : List Transaction
  total : Int
deriving DecidableEq, Repr

/-- The `ammount_total` property of `Invoice`: sum of the embedded
transactions' `ammount`s (defined in the source, called by no route). -/
def Invoice.ammount_total (inv : Invoice) : Int :=
  (inv.transactions.map (fun t => t.ammount)).sum

/-- `POST /transactions` (`main.py` `create_transaction`): returns the
validated body unchanged, no persistence. -/
def create_transaction (customer_data : Transaction) : Transaction :=
  customer_data

/-- `POST /invoices` (`main.py` `create_invoice`): returns the validated body
unchanged, no persistence. -/
def create_invoice (customer_data : Invoice) : Invoice :=
  customer_data

/-- `main.py` `country_timezones`: the fixed five-entry code → zone table. -/
def country_timezones : List (String × String) :=
  [("CO", "America/Bogota"),
   ("MX", "America/Mexico_City"),
   ("AR", "America/Argentina/Buenos_Aires"),
   ("BR", "America/Sao_Paulo"),
   ("PE", "America/Lima")]

/-- `country_timezones.get(iso)`: dictionary lookup, `None` if absent. -/
def countryTimezonesGet (iso : String) : Option String :=
  (country_timezones.find? (fun p => p.1 == iso)).map (fun p => p.2)

/-- The success body of `GET /time/{iso_code}`.  `time` holds the wall-clock
reading `datetime.now(tz)`, abstracted as the value of the ambient clock at
the resolved zone. -/
structure TimeResponse where
  iso_code : String
  country_zone : String
  time : Nat
deriving DecidableEq, Repr

/-- Outcome of `GET /time/{iso_code}`: either a 200 body, or the unhandled
exception from `zoneinfo.ZoneInfo(None)` when the lookup returned `None`
(no `HTTPException` is raised anywhere in this route, so no 404/400 outcome
exists for it). -/
inductive TimeResult where
  | ok (r : TimeResponse)
  | unhandledError
deriving DecidableEq, Repr

/-- `GET /time/{iso_code}` (`main.py` `time`): uppercase the code
(`str.upper`, embedded as `String.toUpper` — they agree on ASCII, and all
table keys are ASCII), look it up in `country_timezones`; an absent zone makes
`zoneinfo.ZoneInfo(timezone_str)` raise (unhandled); otherwise answer with the
uppercased code, the zone, and the current time in that zone.  `now` is the
ambient clock, indexed by zone. -/
def time (now : String → Nat) (iso_code : String) : TimeResult :=
  let iso := iso_code.toUpper
  match countryTimezonesGet iso with
  | none => .unhandledError
  | some timezone_str =>
    .ok { iso_code := iso_code.toUpper, country_zone := timezone_str, time := now timezone_str }

/-! Concrete data used by witnesses and counterexamples. -/

/-- A sample valid creation payload. -/
def demoPayload : CustomerCreate :=
  { name := some "Ada", description := some "first customer",
    email := some "ada@example.com", age := some 36 }

/-- The customer returned by `POST /customers` with `demoPayload` on the fresh
store. -/
def demoCustomer : Customer := (create_customer demoPayload initialDB).1

/-- The store after that single creation. -/
def demoDB : DB := (create_customer demoPayload initialDB).2

/-- The partial-update payload `{"age": 30}` — only `age` is set. -/
def agePatch : CustomerUpdate := { emptyUpdate with age := some 30 }

/-- An invoice whose caller-supplied `total` (999) disagrees with the sum of
its transactions' `ammount`s (15). -/
def skewedInvoice : Invoice :=
  { id := 1, customer := demoCustomer,
    transactions :=
      [{ id := 1, ammount := 10, description := "a" },
       { id := 2, ammount := 5, description := "b" }],
    total := 999 }

/-- Store well-formedness: every row has an assigned primary key strictly
below the autoincrement counter (hence keys are never reissued). -/
def WF (db : DB) : Prop :=
  ∀ r ∈ db.rows, ∃ i, r.id = some i ∧ i < db.nextId

/-! Helper lemmas. -/

/-- ASCII uppercasing is idempotent at the character level. -/
theorem charToUpper_idem (c : Char) : c.toUpper.toUpper = c.toUpper := by
  unfold Char.toUpper
  by_cases h : c.toNat ≥ 97 ∧ c.toNat ≤ 122
  · rw [if_pos h]
    have hv : (c.toNat - 32).isValidChar := by left; omega
    have ht : (Char.ofNat (c.toNat - 32)).toNat = c.toNat - 32 := by
      simp [Char.ofNat, hv]
      rfl
    rw [if_neg (by rw [ht]; omega)]
  · rw [if_neg h, if_neg h]

/-- ASCII uppercasing is idempotent at the string level. -/
theorem stringToUpper_idem (s : String) : s.toUpper.toUpper = s.toUpper := by
  simp [String.toUpper, String.map_eq, List.map_map, Function.comp_def, charToUpper_idem]

/-- A `find?` over a `filter` that removed every match yields nothing. -/
theorem find?_filter_not {α} (p : α → Bool) (l : List α) :
    (l.filter (fun r => !(p r))).find? p = none := by
  refine List.find?_eq_none.mpr ?_
  intro x hx
  rw [List.mem_filter] at hx
  simp only [Bool.not_eq_true'] at hx
  simp [hx.2]

/-- Handling one request never decreases the autoincrement counter. -/
theorem nextId_execState (op : Op) (db : DB) : db.nextId ≤ (execState op db).nextId := by
  cases op with
  | create customer_data => simp [execState, create_customer]
  | read customer_id =>
    unfold execState read_customer
    cases h : db.get customer_id <;> simp [h]
  | update customer_id customer_data =>
    unfold execState update_customer
    cases h : db.get customer_id <;> simp [h]
  | delete customer_id =>
    unfold execState delete_customer
    cases h : db.get customer_id <;> simp [h]
  | list => simp [execState, list_customer]

/-- Handling a request sequence never decreases the autoincrement counter. -/
theorem nextId_run (ops : List Op) (db : DB) : db.nextId ≤ (run ops db).nextId := by
  induction ops generalizing db with
  | nil => simp [run]
  | cons op rest ih => exact le_trans (nextId_execState op db) (ih (execState op db))

/-- Every id handed out by a creation along a request sequence stays below the
final autoincrement counter. -/
theorem createdIds_lt (ops : List Op) (db : DB) :
    ∀ i ∈ createdIds ops db, i < (run ops db).nextId := by
  induction ops generalizing db with
  | nil => simp [createdIds]
  | cons op rest ih =>
    intro i hi
    unfold createdIds at hi
    rw [List.mem_append] at hi
    rw [run]
    rcases hi with hi | hi
    · cases op with
      | create customer_data =>
        simp [create_customer] at hi
        subst hi
        have hstep : (execState (Op.create customer_data) db).nextId = db.nextId + 1 := by
          simp [execState, create_customer]
        have hrun := nextId_run rest (execState (Op.create customer_data) db)
        omega
      | read customer_id => simp at hi
      | update customer_id customer_data => simp at hi
      | delete customer_id => simp at hi
      | list => simp at hi
    · exact ih (execState op db) i hi

/-- Reading leaves the store untouched. -/
theorem execState_read (customer_id : Int) (db : DB) :
    execState (Op.read customer_id) db = db := by
  unfold execState read_customer
  cases h : db.get customer_id <;> simp [h]

/-- The initial store is well-formed. -/
theorem WF_initialDB : WF initialDB := by
  intro r hr
  simp [initialDB] at hr

/-- Handling one request preserves store well-formedness. -/
theorem WF_execState (op : Op) (db : DB) (h : WF db) : WF (execState op db) := by
  cases op with
  | create customer_data =>
    intro r hr
    simp only [execState, create_customer, List.mem_append, List.mem_singleton] at hr
    rcases hr with hr | hr
    · obtain ⟨i, hi, hlt⟩ := h r hr
      exact ⟨i, hi, by simp [execState, create_customer]; omega⟩
    · subst hr
      exact ⟨db.nextId, rfl, by simp [execState, create_customer]⟩
  | read customer_id =>
    rw [execState_read]
    exact h
  | update customer_id customer_data =>
    unfold execState update_customer
    cases hget : db.get customer_id with
    | none =>
      simp only [hget]
      exact h
    | some customer_db =>
      simp only [hget]
      have hfind : db.rows.find? (fun r => r.id == some customer_id) = some customer_db := hget
      have hmem : customer_db ∈ db.rows := List.mem_of_find?_eq_some hfind
      have hid : customer_db.id = some customer_id := by
        have hpred := List.find?_some hfind
        simpa using hpred
      obtain ⟨i, hi, hlt⟩ := h customer_db hmem
      intro r hr
      simp only [List.mem_map] at hr
      obtain ⟨r0, hr0, hr0eq⟩ := hr
      by_cases hc : r0.id = some customer_id
      · simp only [hc, beq_self_eq_true, if_true] at hr0eq
        subst hr0eq
        exact ⟨i, by simp [Customer.sqlmodel_update, hi], hlt⟩
      · have hcb : (r0.id == some customer_id) = false := by simpa using hc
        simp only [hcb, Bool.false_eq_true, if_false] at hr0eq
        subst hr0eq
        obtain ⟨j, hj, hjlt⟩ := h r0 hr0
        exact ⟨j, hj, hjlt⟩
  | delete customer_id =>
    unfold execState delete_customer
    cases hget : db.get customer_id with
    | none =>
      simp only [hget]
      exact h
    | some customer_db =>
      simp only [hget]
      intro r hr
      have hr' : r ∈ db.rows := List.mem_of_mem_filter hr
      obtain ⟨i, hi, hlt⟩ := h r hr'
      exact ⟨i, hi, hlt⟩
  | list =>
    simpa [execState, list_customer] using h

/-- Handling a request sequence preserves store well-formedness. -/
theorem WF_run (ops : List Op) (db : DB) (h : WF db) : WF (run ops db) := by
  induction ops generalizing db with
  | nil => simpa [run] using h
  | cons op rest ih =>
    rw [run]
    exact ih (execState op db) (WF_execState op db h)

/-! Claims. -/

/-- C1.  After any request history, `POST /customers` on a valid
`CustomerCreate` payload returns a `Customer` whose `name`, `description`,
`email` and `age` equal the payload's, and whose `id` is the current
autoincrement value — an id that no earlier creation along the history ever
returned. -/
theorem create_customer_returns_input_fields_and_fresh_id
    (ops : List Op) (db0 : DB) (payload : CustomerCreate) :
    (create_customer payload (run ops db0)).1.name = payload.name ∧
    (create_customer payload (run ops db0)).1.description = payload.description ∧
    (create_customer payload (run ops db0)).1.email = payload.email ∧
    (create_customer payload (run ops db0)).1.age = payload.age ∧
    (create_customer payload (run ops db0)).1.id = some (run ops db0).nextId ∧
    (createdIds ops db0).contains (run ops db0).nextId = false := by
  refine ⟨rfl, rfl, rfl, rfl, rfl, ?_⟩
  have hni : (run ops db0).nextId ∉ createdIds ops db0 := fun hm =>
    absurd (createdIds_lt ops db0 _ hm) (lt_irrefl _)
  simpa using hni

/-- C2.  For an id with no stored customer, `GET`, `PATCH` and `DELETE` on
`/customer/{id}` all fail with status 404 and detail "Customer doesn't exist",
leaving the store as it was. -/
theorem missing_customer_404 (customer_id : Int) (db : DB)
    (h : db.get customer_id = none) :
    read_customer customer_id db = (.error customerNotFound, db) ∧
    (∀ customer_data : CustomerUpdate,
      update_customer customer_id customer_data db = (.error customerNotFound, db)) ∧
    delete_customer customer_id db = (.error customerNotFound, db) ∧
    customerNotFound.status_code = 404 ∧
    customerNotFound.detail = "Customer doesn't exist" := by
  refine ⟨?_, fun customer_data => ?_, ?_, rfl, rfl⟩ <;>
    simp [read_customer, update_customer, delete_customer, h]

/-- Witness for C2 at `customer_id = 5` on the empty store. -/
theorem missing_customer_404_witness :
    initialDB.get 5 = none ∧
    read_customer 5 initialDB = (.error customerNotFound, initialDB) ∧
    update_customer 5 agePatch initialDB = (.error customerNotFound, initialDB) ∧
    delete_customer 5 initialDB = (.error customerNotFound, initialDB) := by
  have h : initialDB.get 5 = none := rfl
  obtain ⟨h1, h2, h3, _, _⟩ := missing_customer_404 5 initialDB h
  exact ⟨h, h1, h2 agePatch, h3⟩

/-- C3.  `PATCH /customer/{id}` on a stored customer succeeds and overwrites
exactly the fields explicitly set in the payload (an explicit `null` for
`description` does overwrite), leaving every omitted field — and the id —
unchanged. -/
theorem update_customer_patch_semantics (customer_id : Int) (db : DB)
    (c : Customer) (customer_data : CustomerUpdate)
    (h : db.get customer_id = some c) :
    ∃ r, (update_customer customer_id customer_data db).1 = .ok r ∧
      r.id = c.id ∧
      (customer_data.name = none → r.name = c.name) ∧
      (∀ v, customer_data.name = some v → r.name = some v) ∧
      (customer_data.description = none → r.description = c.description) ∧
      (∀ v, customer_data.description = some v → r.description = v) ∧
      (customer_data.email = none → r.email = c.email) ∧
      (∀ v, customer_data.email = some v → r.email = some v) ∧
      (customer_data.age = none → r.age = c.age) ∧
      (∀ v, customer_data.age = some v → r.age = some v) := by
  refine ⟨c.sqlmodel_update customer_data, ?_, rfl, ?_, ?_, ?_, ?_, ?_, ?_, ?_, ?_⟩
  · unfold update_customer
    simp [h]
  all_goals
    first
    | (intro hv; simp [Customer.sqlmodel_update, hv])
    | (intro v hv; simp [Customer.sqlmodel_update, hv])

/-- Witness for C3: patching the demo store with `{"age": 30}` changes `age`
to 30 and leaves `name`, `description`, `email` unchanged. -/
theorem update_customer_patch_semantics_witness :
    demoDB.get 1 = some demoCustomer ∧
    ∃ r, (update_customer 1 agePatch demoDB).1 = .ok r ∧
      r.name = demoCustomer.name ∧
      r.description = demoCustomer.description ∧
      r.email = demoCustomer.email ∧
      r.age = some 30 := by
  have h : demoDB.get 1 = some demoCustomer := rfl
  obtain ⟨r, hr, _, hn, _, hd, _, he, _, _, ha⟩ :=
    update_customer_patch_semantics 1 demoDB demoCustomer agePatch h
  exact ⟨h, r, hr, hn rfl, hd rfl, he rfl, ha 30 rfl⟩

/-- C4.  Round-trip: after any request history from the initial store,
creating a customer and then reading back the returned id yields exactly the
record the creation returned (and leaves the store as the creation left
it). -/
theorem create_then_read_roundtrip (ops : List Op) (payload : CustomerCreate) :
    (create_customer payload (run ops initialDB)).1.id
      = some (run ops initialDB).nextId ∧
    read_customer (run ops initialDB).nextId
        (create_customer payload (run ops initialDB)).2
      = (.ok (create_customer payload (run ops initialDB)).1,
         (create_customer payload (run ops initialDB)).2) := by
  refine ⟨rfl, ?_⟩
  have hwf : WF (run ops initialDB) := WF_run ops initialDB WF_initialDB
  have hnone : (run ops initialDB).rows.find?
      (fun r => r.id == some (run ops initialDB).nextId) = none := by
    refine List.find?_eq_none.mpr ?_
    intro r hr
    obtain ⟨i, hi, hlt⟩ := hwf r hr
    simp [hi]
    omega
  have hget : (create_customer payload (run ops initialDB)).2.get
      (run ops initialDB).nextId
      = some (create_customer payload (run ops initialDB)).1 := by
    unfold DB.get create_customer
    simp [List.find?_append, hnone]
  unfold read_customer
  simp [hget]

/-- C5.  `DELETE /customer/{id}` on a stored customer returns the fixed
confirmation `{"detail": "ok"}`, and a subsequent `GET /customer/{id}` on the
resulting store fails with the 404 "Customer doesn't exist" error. -/
theorem delete_customer_terminal (customer_id : Int) (db : DB) (c : Customer)
    (h : db.get customer_id = some c) :
    (delete_customer customer_id db).1 = .ok { detail := "ok" } ∧
    read_customer customer_id (delete_customer customer_id db).2
      = (.error customerNotFound, (delete_customer customer_id db).2) := by
  have hgone : (delete_customer customer_id db).2.get customer_id = none := by
    unfold delete_customer
    simp only [h]
    exact find?_filter_not (fun r => r.id == some customer_id) db.rows
  constructor
  · unfold delete_customer
    simp [h]
  · unfold read_customer
    simp [hgone]

/-- Witness for C5: deleting the demo store's only customer. -/
theorem delete_customer_terminal_witness :
    demoDB.get 1 = some demoCustomer ∧
    (delete_customer 1 demoDB).1 = .ok { detail := "ok" } ∧
    read_customer 1 (delete_customer 1 demoDB).2
      = (.error customerNotFound, (delete_customer 1 demoDB).2) := by
  have h : demoDB.get 1 = some demoCustomer := rfl
  obtain ⟨h1, h2⟩ := delete_customer_terminal 1 demoDB demoCustomer h
  exact ⟨h, h1, h2⟩

/-- C6, counterexample.  A payload with field names `id`, `amount`,
`description` does NOT validate against the source's `Transaction` model: the
source spells its amount field `ammount`, so the required `ammount` field is
missing and validation fails. -/
theorem transaction_amount_spelling_cex :
    Transaction.model_validate
      [("id", JValue.int 1), ("amount", JValue.int 5),
       ("description", JValue.str "top up")] = none := by
  rfl

/-- C6, amended.  The `Transaction` shape consists of `id` (integer),
`ammount` (integer — so spelled in the source) and `description` (string); a
payload supplying exactly these field names validates successfully, and
`POST /transactions` echoes the validated value. -/
theorem transaction_shape_ammount (i a : Int) (d : String) :
    Transaction.model_validate
      [("id", JValue.int i), ("ammount", JValue.int a),
       ("description", JValue.str d)]
      = some { id := i, ammount := a, description := d } ∧
    create_transaction { id := i, ammount := a, description := d }
      = { id := i, ammount := a, description := d } := by
  exact ⟨rfl, rfl⟩

/-- C7.  For any code whose uppercasing is not a key of the five-entry
`country_timezones` table, the lookup yields no zone and `GET /time/{iso_code}`
ends in the unhandled `ZoneInfo(None)` failure — not a 200 body, and no
explicit 404/400 (the route raises no `HTTPException` at all). -/
theorem time_unknown_code_unhandled (now : String → Nat) (iso_code : String)
    (h : iso_code.toUpper ∉ country_timezones.map (fun p => p.1)) :
    countryTimezonesGet iso_code.toUpper = none ∧
    time now iso_code = .unhandledError := by
  have hfind : country_timezones.find? (fun p => p.1 == iso_code.toUpper) = none := by
    refine List.find?_eq_none.mpr ?_
    intro p hp hbeq
    exact h (List.mem_map.mpr ⟨p, hp, by simpa using hbeq⟩)
  have hget : countryTimezonesGet iso_code.toUpper = none := by
    simp [countryTimezonesGet, hfind]
  refine ⟨hget, ?_⟩
  simp [time, hget]

/-- Witness for C7 at `iso_code = "ZZ"`. -/
theorem time_unknown_code_unhandled_witness :
    ("ZZ".toUpper ∉ country_timezones.map (fun p => p.1)) ∧
    time (fun _ => 0) "ZZ" = .unhandledError := by
  have hz : "ZZ".toUpper = "ZZ" := by
    simp [String.toUpper, String.map_eq]
  have h : "ZZ".toUpper ∉ country_timezones.map (fun p => p.1) := by
    rw [hz]
    decide
  exact ⟨h, (time_unknown_code_unhandled (fun _ => 0) "ZZ" h).2⟩

/-- C8.  `GET /time/{iso_code}` is case-insensitive — its result equals the
result for the uppercased code — and both `/time/CO` and `/time/co` answer
with `country_zone = "America/Bogota"`. -/
theorem time_case_insensitive (now : String → Nat) (iso_code : String) :
    time now iso_code = time now iso_code.toUpper ∧
    time now "CO"
      = .ok { iso_code := "CO", country_zone := "America/Bogota",
              time := now "America/Bogota" } ∧
    time now "co"
      = .ok { iso_code := "CO", country_zone := "America/Bogota",
              time := now "America/Bogota" } := by
  have hco : "co".toUpper = "CO" := by
    simp [String.toUpper, String.map_eq]
  have hCO : "CO".toUpper = "CO" := by
    simp [String.toUpper, String.map_eq]
  refine ⟨?_, ?_, ?_⟩
  · unfold time
    rw [stringToUpper_idem]
  · simp [time, hCO]
    rfl
  · simp [time, hco]
    rfl

/-- C9.  `POST /transactions` and `POST /invoices` return the validated body
unchanged for every well-formed body; in particular `skewedInvoice`, whose
`total` (999) differs from the sum of its transactions' `ammount`s (15), is
accepted and echoed — no reconciliation happens. -/
theorem echo_endpoints_no_reconciliation (t : Transaction) (inv : Invoice) :
    create_transaction t = t ∧
    create_invoice inv = inv ∧
    create_invoice skewedInvoice = skewedInvoice ∧
    skewedInvoice.total ≠ skewedInvoice.ammount_total := by
  refine ⟨rfl, rfl, rfl, ?_⟩
  decide

/-- C10.  When `GET`, `PATCH` or `DELETE` on `/customer/{id}` hits an absent
id, the existence check fires before any mutation: the post-request store of
each handler is exactly the pre-request store. -/
theorem missing_customer_state_unchanged (customer_id : Int) (db : DB)
    (h : db.get customer_id = none) :
    (read_customer customer_id db).2 = db ∧
    (∀ customer_data : CustomerUpdate,
      (update_customer customer_id customer_data db).2 = db) ∧
    (delete_customer customer_id db).2 = db := by
  refine ⟨?_, fun customer_data => ?_, ?_⟩ <;>
    simp [read_customer, update_customer, delete_customer, h]

/-- Witness for C10 at `customer_id = 7` on the demo store (which stores only
id 1). -/
theorem missing_customer_state_unchanged_witness :
    demoDB.get 7 = none ∧
    (read_customer 7 demoDB).2 = demoDB ∧
    (update_customer 7 agePatch demoDB).2 = demoDB ∧
    (delete_customer 7 demoDB).2 = demoDB := by
  have h : demoDB.get 7 = none := rfl
  obtain ⟨h1, h2, h3⟩ := missing_customer_state_unchanged 7 demoDB h
  exact ⟨h, h1, h2 agePatch, h3⟩

end App
